import Mathlib

set_option maxRecDepth 8000

/-!
Verification of the peer-to-peer networking core of the Cil node
(src/node/node.js, constants from src/config/prod.conf.js).

The message dispatcher `_incomingMessage` and the handlers it calls are
shallowly embedded as pure functions from a node environment, the peer's
current state and the received message to a trace of actions (messages
pushed to the peer, misbehaviour points, state flips, mempool calls).
Collaborator classes that are not part of the visible sources (Peer's
`misbehave`/`ban`, PeerManager's `addPeer`) are modelled from the spec;
their definitions say so in their doc comments.
-/

namespace Cil

/-- Message type tags, the closed enum of src/config/prod.conf.js
(`constants.messageTypes`). -/
inductive MsgType
  | version
  | verack
  | getaddr
  | addr
  | reject
  | block
  | tx
  | inv
  | getdata
  | getblocks
  | ping
  | pong
  | wHandshake
  | wNextround
  | wExpose
  | wBlock
  | wBlockVote
deriving DecidableEq, Repr

/-- From src/config/prod.conf.js: how many peers we send in one `addr` message. -/
def ADDR_MAX_LENGTH : Nat := 1000

/-- From src/config/prod.conf.js: misbehaviour score at which a peer is banned. -/
def BAN_PEER_SCORE : Nat := 100

/-- From src/config/prod.conf.js: `PEER_QUERY_TIMEOUT` in milliseconds. -/
def PEER_QUERY_TIMEOUT : Nat := 30000

/-- From src/config/prod.conf.js: the protocol version `0x0123`. -/
def protocolVersion : Nat := 0x0123

/-- Reject codes carried by `MsgReject`. Only `REJECT_DUPLICATE` is used by
the visible node code (src/node/node.js `_incomingConnection`). -/
inductive RejectCode
  | REJECT_DUPLICATE
deriving DecidableEq, Repr

/-- The advertised peer descriptor (`PeerInfo.data`): a canonical address,
a port and the advertised service kinds. Addresses and services are
abstracted to naturals. -/
structure PeerInfoData where
  address : Nat
  port : Nat
  services : List Nat
deriving DecidableEq, Repr

/-- A transaction as far as src/node/node.js inspects it: only `publicKey`
is read (by `_checkTx`, through `Crypto.address`). -/
structure Tx where
  publicKey : Nat
deriving DecidableEq, Repr

/-- A decoded wire message, a tagged variant over the closed message-type
enum.  Payloads are kept only where src/node/node.js reads them. -/
inductive Msg
  | version (protoVer : Nat) (nonce : Nat) (peerInfo : PeerInfoData)
  | verack
  | getaddr
  | addr (count : Nat) (peers : List PeerInfoData)
  | reject (code : RejectCode) (reason : String)
  | tx (t : Tx)
  | block
  | inv
  | getdata
  | getblocks
  | ping
  | pong
  | wHandshake
  | wNextround
  | wExpose
  | wBlock
  | wBlockVote
deriving DecidableEq, Repr

/-- The type tag of a message (the string dispatched on by
`isVersion`, `isVerAck`, `isReject`, `isGetAddr`, `isAddr`, `isTx`). -/
def Msg.msgType : Msg → MsgType
  | .version _ _ _ => .version
  | .verack => .verack
  | .getaddr => .getaddr
  | .addr _ _ => .addr
  | .reject _ _ => .reject
  | .tx _ => .tx
  | .block => .block
  | .inv => .inv
  | .getdata => .getdata
  | .getblocks => .getblocks
  | .ping => .ping
  | .pong => .pong
  | .wHandshake => .wHandshake
  | .wNextround => .wNextround
  | .wExpose => .wExpose
  | .wBlock => .wBlock
  | .wBlockVote => .wBlockVote

/-- The runtime state of one peer (the fields of the Peer collaborator that
src/node/node.js reads or writes). -/
structure Peer where
  address : Nat
  inbound : Bool
  connected : Bool
  version : Option Nat
  fullyConnected : Bool
  misbehaviorScore : Nat
  banned : Bool
  loadDone : Bool
  peerInfo : Option PeerInfoData
deriving DecidableEq, Repr

/-- Modelled from the spec: `misbehave(points)` adds to the score; if the
score reaches `BAN_PEER_SCORE`, it sets the ban and closes the connection
(spec section 4.3).  The Peer class itself is not among the visible sources. -/
def Peer.misbehave (p : Peer) (points : Nat) : Peer :=
  let s := p.misbehaviorScore + points
  if BAN_PEER_SCORE ≤ s then
    { p with misbehaviorScore := s, banned := true, connected := false }
  else
    { p with misbehaviorScore := s }

/-- Modelled from the spec: `ban()` is an immediate move to the `BANNED`
terminal state, a policy close (spec section 4.3). -/
def Peer.ban (p : Peer) : Peer :=
  { p with banned := true, connected := false }

/-- One observable action performed by the node while handling a message or
a connection: a message pushed to the peer, a call on the peer's state, a
mempool call, or an address-book insertion.  The trace of actions is the
shallow embedding of the handler bodies of src/node/node.js. -/
inductive Action
  | send (m : Msg)
  | disconnect
  | ban
  | misbehave (points : Nat)
  | setVersion (v : Nat)
  | setPeerInfo (pi : PeerInfoData)
  | updateHandlers
  | setFullyConnected
  | setLoadDone
  | mempoolAccept (t : Tx)
  | relayTx (t : Tx)
  | bookAdd (pi : PeerInfoData)
deriving DecidableEq, Repr

/-- Interpretation of one action on the peer's state.  Actions that do not
touch the peer (sends, mempool and address-book calls) leave it unchanged. -/
def applyToPeer (p : Peer) (a : Action) : Peer :=
  match a with
  | .send _ => p
  | .disconnect => { p with connected := false }
  | .ban => p.ban
  | .misbehave n => p.misbehave n
  | .setVersion v => { p with version := some v }
  | .setPeerInfo pi => { p with peerInfo := some pi }
  | .updateHandlers => p
  | .setFullyConnected => { p with fullyConnected := true }
  | .setLoadDone => { p with loadDone := true }
  | .mempoolAccept _ => p
  | .relayTx _ => p
  | .bookAdd _ => p

/-- Run a trace of actions against a peer's state. -/
def runPeer (p : Peer) (as : List Action) : Peer :=
  as.foldl applyToPeer p

/-- The messages pushed to the peer along a trace. -/
def sentMsgs (as : List Action) : List Msg :=
  as.filterMap fun a => match a with | .send m => some m | _ => none

/-- The transactions submitted to the mempool along a trace. -/
def mempoolCalls (as : List Action) : List Tx :=
  as.filterMap fun a => match a with | .mempoolAccept t => some t | _ => none

/-- The transactions relayed to other peers along a trace. -/
def relayCalls (as : List Action) : List Tx :=
  as.filterMap fun a => match a with | .relayTx t => some t | _ => none

/-- The peer descriptors inserted into the address book along a trace. -/
def bookAdds (as : List Action) : List PeerInfoData :=
  as.filterMap fun a => match a with | .bookAdd pi => some pi | _ => none

/-- How many times `peer.ban()` is called along a trace. -/
def banCount (as : List Action) : Nat :=
  as.countP fun a => match a with | .ban => true | _ => false

/-- The collaborators and own fields the Node reads while handling messages:
its handshake nonce, its own peer descriptor, the address book contents, the
Crypto capability, the Storage collaborator (which may fail locally, hence
`Except`), and the mempool's acceptance verdict. -/
structure NodeEnv where
  nonce : Nat
  myPeerInfo : PeerInfoData
  bookInfos : List PeerInfoData
  cryptoAddress : Nat → Nat
  storageGetAccount : Nat → Except Unit (Option Nat)
  mempoolAccept : Tx → Bool

/-- `_createMsgVersion` of src/node/node.js: our own version message,
carrying our nonce and peer descriptor. -/
def createMsgVersion (env : NodeEnv) : Msg :=
  .version protocolVersion env.nonce env.myPeerInfo

/-- `_handleVersionMessage` of src/node/node.js: ban on our own nonce,
disconnect on an incompatible protocol version, misbehave on a duplicate
VERSION, otherwise record the version, answer an inbound peer with our own
VERSION, and send VERACK. -/
def handleVersionMessage (env : NodeEnv) (peer : Peer) (protoVer nonce : Nat)
    (pi : PeerInfoData) : List Action :=
  if nonce = env.nonce then
    [.ban]
  else if protocolVersion ≤ protoVer then
    if peer.version = none then
      [.setVersion protoVer]
        ++ (if peer.inbound then
              [.setPeerInfo pi, .updateHandlers, .send (createMsgVersion env)]
            else [])
        ++ [.send .verack]
    else
      [.misbehave 1]
  else
    [.disconnect]

/-- `_handleVerackMessage` of src/node/node.js: when the peer's version is
known, mark it fully connected and, on an outbound connection, ask for its
address book. -/
def handleVerackMessage (peer : Peer) : List Action :=
  if peer.version.isSome then
    [.setFullyConnected] ++ (if peer.inbound then [] else [.send .getaddr])
  else
    []

/-- `_handlePeerRequest` of src/node/node.js: push one `MsgAddr` carrying
every known peer's descriptor.  When the book is longer than
`ADDR_MAX_LENGTH` the code only logs an error; it does not split. -/
def handlePeerRequest (bookInfos : List PeerInfoData) : List Action :=
  [.send (.addr bookInfos.length bookInfos)]

/-- `_handlePeerList` of src/node/node.js: insert every received descriptor
into the address book, then set `loadDone`. -/
def handlePeerList (peers : List PeerInfoData) : List Action :=
  (peers.map Action.bookAdd) ++ [.setLoadDone]

/-- Failures `_checkTx` of src/node/node.js can raise: the sender's account
is absent, or the Storage collaborator itself failed. -/
inductive CheckTxErr
  | accountNotFound
  | storageFailure
deriving DecidableEq, Repr

/-- `_checkTx` of src/node/node.js: derive the sender address with
`Crypto.address`, look the account up in Storage, and fail when it is
absent.  A failure of Storage itself propagates as an exception. -/
def checkTx (env : NodeEnv) (t : Tx) : Except CheckTxErr Unit :=
  match env.storageGetAccount (env.cryptoAddress t.publicKey) with
  | .error _ => .error .storageFailure
  | .ok none => .error .accountNotFound
  | .ok (some _) => .ok ()

/-- `_handleTx` of src/node/node.js: validate with `_checkTx` (an exception
propagates to the dispatcher's catch), submit to the mempool, and relay on
acceptance. -/
def handleTx (env : NodeEnv) (t : Tx) : Except CheckTxErr (List Action) :=
  match checkTx env t with
  | .error e => .error e
  | .ok _ =>
      .ok ([.mempoolAccept t] ++ (if env.mempoolAccept t then [.relayTx t] else []))

/-- The try-block of `_incomingMessage` of src/node/node.js: REJECT, VERSION
and VERACK are handled before the handshake gate; any other message from a
peer that is not fully connected costs one misbehaviour point; then GETADDR,
ADDR and TX are dispatched and every remaining type raises
`Unhandled message type`. -/
def incomingMessageBody (env : NodeEnv) (peer : Peer) (m : Msg) :
    Except CheckTxErr (List Action) :=
  match m with
  | .reject _ _ => .ok [.misbehave 1, .setLoadDone]
  | .version protoVer nonce pi => .ok (handleVersionMessage env peer protoVer nonce pi)
  | .verack => .ok (handleVerackMessage peer)
  | m' =>
      if peer.fullyConnected then
        match m' with
        | .getaddr => .ok (handlePeerRequest env.bookInfos)
        | .addr _ peers => .ok (handlePeerList peers)
        | .tx t => handleTx env t
        | _ => .error .accountNotFound
      else
        .ok [.misbehave 1]

/-- `_incomingMessage` of src/node/node.js with its catch-all: any exception
thrown while handling a message is logged and costs the sending peer one
misbehaviour point. -/
def incomingMessage (env : NodeEnv) (peer : Peer) (m : Msg) : List Action :=
  match incomingMessageBody env peer m with
  | .ok as => as
  | .error _ => [.misbehave 1]

/-- Modelled from the spec: `PeerManager.addPeer`, keyed by canonical
address; an absent key inserts and returns the stored peer; a live incoming
connection colliding with an existing live connection returns undefined and
leaves the book alone (spec section 4.4).  The PeerManager class is not
among the visible sources. -/
def addPeer (book : List Peer) (p : Peer) : Option Peer × List Peer :=
  match book.find? (fun q => q.address == p.address) with
  | none => (some p, book ++ [p])
  | some q =>
      if q.connected then
        (none, book)
      else
        (some p, book.map fun q2 => if q2.address == p.address then p else q2)

/-- The Peer the node wraps a fresh inbound connection in
(`new Peer({connection, transport})`). -/
def mkInboundPeer (addr : Nat) : Peer :=
  { address := addr
    inbound := true
    connected := true
    version := none
    fullyConnected := false
    misbehaviorScore := 0
    banned := false
    loadDone := false
    peerInfo := none }

/-- `_incomingConnection` of src/node/node.js: wrap the connection in a new
Peer and offer it to the peer manager; when `addPeer` reports a duplicate,
push one `MsgReject` with `REJECT_DUPLICATE` and disconnect the new
connection.  Returns the trace of actions on the new connection and the
resulting address book. -/
def incomingConnection (book : List Peer) (addr : Nat) : List Action × List Peer :=
  match addPeer book (mkInboundPeer addr) with
  | (some _, book2) => ([], book2)
  | (none, book2) =>
      ([.send (.reject .REJECT_DUPLICATE "Duplicate connection detected"), .disconnect],
       book2)

/-- One DNS seed's resolver as `_queryDnsRecords` of src/node/node.js
observes it: it fulfils with addresses at some time, rejects at some time
(the rejection is caught and logged), or never settles. -/
inductive DnsOutcome
  | resolves (time : Nat) (addrs : List Nat)
  | fails (time : Nat)
  | hangs
deriving DecidableEq, Repr

/-- The time at which `Promise.all` over the wrapped resolver promises
settles: the latest settle time, or never when some resolver hangs. -/
def allSettleTime (rs : List DnsOutcome) : Option Nat :=
  rs.foldr
    (fun r acc =>
      match acc with
      | none => none
      | some m =>
          match r with
          | .resolves t _ => some (max t m)
          | .fails t => some (max t m)
          | .hangs => none)
    (some 0)

/-- The time at which `Promise.race([Promise.all(arrPromises),
sleep(this._queryTimeout)])` settles. -/
def queryCompletionTime (timeout : Nat) (rs : List DnsOutcome) : Nat :=
  match allSettleTime rs with
  | some t => min t timeout
  | none => timeout

/-- The accumulation of `arrResult` in `_queryDnsRecords`: each resolver
that fulfilled by the cut-off has appended its addresses. -/
def collectResolved (cutoff : Nat) (rs : List DnsOutcome) : List Nat :=
  rs.foldl
    (fun acc r =>
      match r with
      | .resolves t addrs => if t ≤ cutoff then acc ++ addrs else acc
      | _ => acc)
    []

/-- `_queryDnsRecords` of src/node/node.js: race all resolvers against the
query timeout and return whatever has been accumulated when the race
settles.  Rejections were caught and logged inside each wrapped promise. -/
def queryDnsRecords (timeout : Nat) (rs : List DnsOutcome) : List Nat :=
  collectResolved (queryCompletionTime timeout rs) rs

/-- A concrete node environment used to instantiate the theorems: empty
address book, empty Storage, rejecting mempool. -/
def env0 : NodeEnv :=
  { nonce := 7
    myPeerInfo := { address := 1, port := 8223, services := [0] }
    bookInfos := []
    cryptoAddress := fun k => k
    storageGetAccount := fun _ => .ok none
    mempoolAccept := fun _ => false }

/-- A concrete node environment whose Storage collaborator fails on every
lookup (a node-local failure). -/
def envStorageDown : NodeEnv :=
  { nonce := 7
    myPeerInfo := { address := 1, port := 8223, services := [0] }
    bookInfos := []
    cryptoAddress := fun k => k
    storageGetAccount := fun _ => .error ()
    mempoolAccept := fun _ => true }

/-- A concrete peer that has completed the handshake. -/
def peerFull : Peer :=
  { address := 42
    inbound := true
    connected := true
    version := some protocolVersion
    fullyConnected := true
    misbehaviorScore := 0
    banned := false
    loadDone := false
    peerInfo := none }

/-- A concrete outbound peer whose VERSION has not arrived yet. -/
def peerOutboundNoVersion : Peer :=
  { address := 43
    inbound := false
    connected := true
    version := none
    fullyConnected := false
    misbehaviorScore := 0
    banned := false
    loadDone := false
    peerInfo := none }

/-- A concrete address book holding more peers than `ADDR_MAX_LENGTH`. -/
def bigBook : List PeerInfoData :=
  (List.range 1001).map fun i => { address := i, port := 8223, services := [0] }

/-- A concrete outbound peer whose VERSION has been recorded. -/
def peerOutboundWithVersion : Peer :=
  { address := 44
    inbound := false
    connected := true
    version := some protocolVersion
    fullyConnected := false
    misbehaviorScore := 0
    banned := false
    loadDone := false
    peerInfo := none }

/-- The concrete environment `env0` with the oversized address book. -/
def envBig : NodeEnv :=
  { nonce := 7
    myPeerInfo := { address := 1, port := 8223, services := [0] }
    bookInfos := bigBook
    cryptoAddress := fun k => k
    storageGetAccount := fun _ => .ok none
    mempoolAccept := fun _ => false }

/-- The addresses one resolver contributes to the result of
`_queryDnsRecords` when the race settles at `cutoff`: those of a resolver
that fulfilled by then; a rejected or hanging resolver contributes none. -/
def resolvedBy (cutoff : Nat) : DnsOutcome → Option (List Nat)
  | .resolves t addrs => if t ≤ cutoff then some addrs else none
  | .fails _ => none
  | .hangs => none

end Cil

namespace Cil

section HelperLemmas

@[simp]
theorem Peer.misbehave_misbehaviorScore (p : Peer) (n : Nat) :
    (p.misbehave n).misbehaviorScore = p.misbehaviorScore + n := by
  by_cases h : BAN_PEER_SCORE ≤ p.misbehaviorScore + n <;>
    simp [Peer.misbehave, h]

@[simp]
theorem Peer.misbehave_version (p : Peer) (n : Nat) :
    (p.misbehave n).version = p.version := by
  by_cases h : BAN_PEER_SCORE ≤ p.misbehaviorScore + n <;>
    simp [Peer.misbehave, h]

@[simp]
theorem Peer.misbehave_fullyConnected (p : Peer) (n : Nat) :
    (p.misbehave n).fullyConnected = p.fullyConnected := by
  by_cases h : BAN_PEER_SCORE ≤ p.misbehaviorScore + n <;>
    simp [Peer.misbehave, h]

@[simp]
theorem Peer.misbehave_loadDone (p : Peer) (n : Nat) :
    (p.misbehave n).loadDone = p.loadDone := by
  by_cases h : BAN_PEER_SCORE ≤ p.misbehaviorScore + n <;>
    simp [Peer.misbehave, h]

end HelperLemmas

/-- C1: while a peer has not completed the handshake, any message other
than VERSION, VERACK or REJECT makes the node call `misbehave(1)` and
nothing else: the misbehaviour score rises by exactly one, no message is
sent, nothing enters the mempool or the address book, and the peer's
version, handshake and load flags are untouched. -/
theorem claim_C1_handshake_gating (env : NodeEnv) (peer : Peer) (m : Msg)
    (hfc : peer.fullyConnected = false)
    (hv : m.msgType ≠ MsgType.version)
    (ha : m.msgType ≠ MsgType.verack)
    (hr : m.msgType ≠ MsgType.reject) :
    incomingMessage env peer m = [.misbehave 1]
      ∧ (runPeer peer (incomingMessage env peer m)).misbehaviorScore
          = peer.misbehaviorScore + 1
      ∧ sentMsgs (incomingMessage env peer m) = []
      ∧ mempoolCalls (incomingMessage env peer m) = []
      ∧ bookAdds (incomingMessage env peer m) = []
      ∧ (runPeer peer (incomingMessage env peer m)).version = peer.version
      ∧ (runPeer peer (incomingMessage env peer m)).fullyConnected = false
      ∧ (runPeer peer (incomingMessage env peer m)).loadDone = peer.loadDone := by
  have htrace : incomingMessage env peer m = [.misbehave 1] := by
    cases m <;>
      simp_all [incomingMessage, incomingMessageBody, Msg.msgType]
  refine ⟨htrace, ?_, ?_, ?_, ?_, ?_, ?_, ?_⟩ <;>
    simp [htrace, runPeer, applyToPeer, sentMsgs, mempoolCalls, bookAdds, hfc]

/-- Witness for C1: a PING received from a fresh inbound peer. -/
theorem claim_C1_handshake_gating_witness :
    incomingMessage env0 (mkInboundPeer 42) .ping = [.misbehave 1]
      ∧ (runPeer (mkInboundPeer 42) (incomingMessage env0 (mkInboundPeer 42) .ping)).misbehaviorScore
          = (mkInboundPeer 42).misbehaviorScore + 1
      ∧ sentMsgs (incomingMessage env0 (mkInboundPeer 42) .ping) = []
      ∧ mempoolCalls (incomingMessage env0 (mkInboundPeer 42) .ping) = []
      ∧ bookAdds (incomingMessage env0 (mkInboundPeer 42) .ping) = []
      ∧ (runPeer (mkInboundPeer 42) (incomingMessage env0 (mkInboundPeer 42) .ping)).version
          = (mkInboundPeer 42).version
      ∧ (runPeer (mkInboundPeer 42) (incomingMessage env0 (mkInboundPeer 42) .ping)).fullyConnected
          = false
      ∧ (runPeer (mkInboundPeer 42) (incomingMessage env0 (mkInboundPeer 42) .ping)).loadDone
          = (mkInboundPeer 42).loadDone :=
  claim_C1_handshake_gating env0 (mkInboundPeer 42) .ping rfl
    (by decide) (by decide) (by decide)

/-- C2: a VERSION carrying our own nonce makes the node call `peer.ban()`
exactly once; nothing is sent back and the peer's recorded version is not
set. -/
theorem claim_C2_self_connection (env : NodeEnv) (peer : Peer) (pv : Nat)
    (pi : PeerInfoData) :
    incomingMessage env peer (.version pv env.nonce pi) = [.ban]
      ∧ banCount (incomingMessage env peer (.version pv env.nonce pi)) = 1
      ∧ sentMsgs (incomingMessage env peer (.version pv env.nonce pi)) = []
      ∧ (runPeer peer (incomingMessage env peer (.version pv env.nonce pi))).version
          = peer.version
      ∧ (runPeer peer (incomingMessage env peer (.version pv env.nonce pi))).banned
          = true := by
  have htrace : incomingMessage env peer (.version pv env.nonce pi) = [.ban] := by
    simp [incomingMessage, incomingMessageBody, handleVersionMessage]
  refine ⟨htrace, ?_, ?_, ?_, ?_⟩ <;>
    simp [htrace, banCount, sentMsgs, runPeer, applyToPeer, Peer.ban]

/-- C9: a REJECT is handled before the handshake gate: whatever the peer's
state, the node adds exactly one misbehaviour point and then sets
`loadDone`, releasing a bootstrap task waiting on `loaded()`. -/
theorem claim_C9_reject_before_gate (env : NodeEnv) (peer : Peer)
    (c : RejectCode) (reason : String) :
    incomingMessage env peer (.reject c reason) = [.misbehave 1, .setLoadDone]
      ∧ (runPeer peer (incomingMessage env peer (.reject c reason))).misbehaviorScore
          = peer.misbehaviorScore + 1
      ∧ (runPeer peer (incomingMessage env peer (.reject c reason))).loadDone = true
      ∧ sentMsgs (incomingMessage env peer (.reject c reason)) = [] := by
  have htrace : incomingMessage env peer (.reject c reason)
      = [.misbehave 1, .setLoadDone] := by
    simp [incomingMessage, incomingMessageBody]
  refine ⟨htrace, ?_, ?_, ?_⟩ <;>
    simp [htrace, runPeer, applyToPeer, sentMsgs]

/-- C10: from a fully connected peer, a message of any type the dispatcher
does not handle (BLOCK, INV, GETDATA, GETBLOCKS, PING, PONG, the witness
kinds) raises `Unhandled message type`, which the catch-all converts into
exactly one misbehaviour point and nothing else. -/
theorem claim_C10_unhandled_types (env : NodeEnv) (peer : Peer) (m : Msg)
    (hfc : peer.fullyConnected = true)
    (h1 : m.msgType ≠ MsgType.reject)
    (h2 : m.msgType ≠ MsgType.version)
    (h3 : m.msgType ≠ MsgType.verack)
    (h4 : m.msgType ≠ MsgType.getaddr)
    (h5 : m.msgType ≠ MsgType.addr)
    (h6 : m.msgType ≠ MsgType.tx) :
    incomingMessage env peer m = [.misbehave 1]
      ∧ (runPeer peer (incomingMessage env peer m)).misbehaviorScore
          = peer.misbehaviorScore + 1
      ∧ sentMsgs (incomingMessage env peer m) = []
      ∧ mempoolCalls (incomingMessage env peer m) = []
      ∧ bookAdds (incomingMessage env peer m) = []
      ∧ (runPeer peer (incomingMessage env peer m)).version = peer.version
      ∧ (runPeer peer (incomingMessage env peer m)).loadDone = peer.loadDone := by
  have htrace : incomingMessage env peer m = [.misbehave 1] := by
    cases m <;>
      simp_all [incomingMessage, incomingMessageBody, Msg.msgType]
  refine ⟨htrace, ?_, ?_, ?_, ?_, ?_, ?_⟩ <;>
    simp [htrace, runPeer, applyToPeer, sentMsgs, mempoolCalls, bookAdds]

/-- Witness for C10: a PONG received from a fully connected peer. -/
theorem claim_C10_unhandled_types_witness :
    incomingMessage env0 peerFull .pong = [.misbehave 1]
      ∧ (runPeer peerFull (incomingMessage env0 peerFull .pong)).misbehaviorScore
          = peerFull.misbehaviorScore + 1
      ∧ sentMsgs (incomingMessage env0 peerFull .pong) = []
      ∧ mempoolCalls (incomingMessage env0 peerFull .pong) = []
      ∧ bookAdds (incomingMessage env0 peerFull .pong) = []
      ∧ (runPeer peerFull (incomingMessage env0 peerFull .pong)).version = peerFull.version
      ∧ (runPeer peerFull (incomingMessage env0 peerFull .pong)).loadDone
          = peerFull.loadDone :=
  claim_C10_unhandled_types env0 peerFull .pong rfl
    (by decide) (by decide) (by decide) (by decide) (by decide) (by decide)

/-- C5 counterexample: the claim reads the GETADDR send as conditioned only
on `inbound = false`, but on a VERACK from an outbound peer whose VERSION
has not arrived yet (`version = none`) the handler does nothing: no
GETADDR is sent.  This refutes the claim as stated at a concrete input. -/
theorem claim_C5_counterexample :
    ¬ ((peerOutboundNoVersion.version.isSome = true →
          (runPeer peerOutboundNoVersion
              (incomingMessage env0 peerOutboundNoVersion .verack)).fullyConnected = true)
        ∧ (peerOutboundNoVersion.inbound = false →
            Msg.getaddr ∈ sentMsgs (incomingMessage env0 peerOutboundNoVersion .verack))) := by
  intro h
  exact absurd (h.2 rfl) (by decide)

/-- C5 (amended): on a VERACK, when the peer's version is already known the
node marks it fully connected and, only then, sends GETADDR on an outbound
connection; when the version is not yet known the VERACK has no effect at
all: the trace is empty, the peer's state is unchanged and nothing is sent,
even on a connection the node initiated. -/
theorem claim_C5_verack_amended (env : NodeEnv) (peer : Peer) :
    (peer.version.isSome = true →
        incomingMessage env peer .verack
            = [.setFullyConnected] ++ (if peer.inbound then [] else [.send .getaddr])
          ∧ (runPeer peer (incomingMessage env peer .verack)).fullyConnected = true
          ∧ (peer.inbound = false →
              sentMsgs (incomingMessage env peer .verack) = [.getaddr])
          ∧ (peer.inbound = true →
              sentMsgs (incomingMessage env peer .verack) = []))
      ∧ (peer.version = none →
          incomingMessage env peer .verack = []
            ∧ runPeer peer (incomingMessage env peer .verack) = peer
            ∧ sentMsgs (incomingMessage env peer .verack) = []) := by
  constructor
  · intro hv
    have htrace : incomingMessage env peer .verack
        = [.setFullyConnected] ++ (if peer.inbound then [] else [.send .getaddr]) := by
      simp [incomingMessage, incomingMessageBody, handleVerackMessage, hv]
    refine ⟨htrace, ?_, ?_, ?_⟩ <;>
      cases hin : peer.inbound <;>
        simp [htrace, hin, runPeer, applyToPeer, sentMsgs]
  · intro hv
    have htrace : incomingMessage env peer .verack = [] := by
      simp [incomingMessage, incomingMessageBody, handleVerackMessage, hv]
    exact ⟨htrace, by simp [htrace, runPeer], by simp [htrace, sentMsgs]⟩

/-- Witness for C5 (amended): an outbound peer with a recorded version
exercises the version-known branch, and an outbound peer whose VERSION has
not arrived exercises the no-effect branch. -/
theorem claim_C5_verack_amended_witness :
    (incomingMessage env0 peerOutboundWithVersion .verack
          = [.setFullyConnected]
              ++ (if peerOutboundWithVersion.inbound then [] else [.send .getaddr])
        ∧ (runPeer peerOutboundWithVersion
              (incomingMessage env0 peerOutboundWithVersion .verack)).fullyConnected = true
        ∧ (peerOutboundWithVersion.inbound = false →
            sentMsgs (incomingMessage env0 peerOutboundWithVersion .verack) = [.getaddr])
        ∧ (peerOutboundWithVersion.inbound = true →
            sentMsgs (incomingMessage env0 peerOutboundWithVersion .verack) = []))
      ∧ (incomingMessage env0 peerOutboundNoVersion .verack = []
          ∧ runPeer peerOutboundNoVersion
              (incomingMessage env0 peerOutboundNoVersion .verack) = peerOutboundNoVersion
          ∧ sentMsgs (incomingMessage env0 peerOutboundNoVersion .verack) = []) :=
  ⟨(claim_C5_verack_amended env0 peerOutboundWithVersion).1 rfl,
   (claim_C5_verack_amended env0 peerOutboundNoVersion).2 rfl⟩

/-- C6: a transaction from a fully connected peer whose sender account is
absent in Storage fails `_checkTx`; the catch-all charges the peer exactly
one misbehaviour point and the transaction never reaches the mempool nor is
relayed. -/
theorem claim_C6_unknown_account (env : NodeEnv) (peer : Peer) (t : Tx)
    (hfc : peer.fullyConnected = true)
    (hacct : env.storageGetAccount (env.cryptoAddress t.publicKey) = .ok none) :
    incomingMessage env peer (.tx t) = [.misbehave 1]
      ∧ (runPeer peer (incomingMessage env peer (.tx t))).misbehaviorScore
          = peer.misbehaviorScore + 1
      ∧ mempoolCalls (incomingMessage env peer (.tx t)) = []
      ∧ relayCalls (incomingMessage env peer (.tx t)) = []
      ∧ sentMsgs (incomingMessage env peer (.tx t)) = [] := by
  have htrace : incomingMessage env peer (.tx t) = [.misbehave 1] := by
    simp [incomingMessage, incomingMessageBody, handleTx, checkTx, hfc, hacct]
  refine ⟨htrace, ?_, ?_, ?_, ?_⟩ <;>
    simp [htrace, runPeer, applyToPeer, mempoolCalls, relayCalls, sentMsgs]

/-- Witness for C6: `env0`'s Storage knows no account. -/
theorem claim_C6_unknown_account_witness :
    incomingMessage env0 peerFull (.tx ⟨5⟩) = [.misbehave 1]
      ∧ (runPeer peerFull (incomingMessage env0 peerFull (.tx ⟨5⟩))).misbehaviorScore
          = peerFull.misbehaviorScore + 1
      ∧ mempoolCalls (incomingMessage env0 peerFull (.tx ⟨5⟩)) = []
      ∧ relayCalls (incomingMessage env0 peerFull (.tx ⟨5⟩)) = []
      ∧ sentMsgs (incomingMessage env0 peerFull (.tx ⟨5⟩)) = [] :=
  claim_C6_unknown_account env0 peerFull ⟨5⟩ rfl rfl

/-- C7 counterexample: a failure of the Storage collaborator itself (a
node-local failure) is caught by the same catch-all as peer-attributable
failures, so the sending peer's misbehaviour score does rise.  This refutes
the claim that local failures never cost the peer. -/
theorem claim_C7_counterexample :
    ¬ ((runPeer peerFull
          (incomingMessage envStorageDown peerFull (.tx ⟨5⟩))).misbehaviorScore
        = peerFull.misbehaviorScore) := by
  decide

/-- C7 (amended): every failure thrown while handling a message from a
fully connected peer — including a node-local Storage failure — is caught
by the dispatcher's catch-all and charges the sending peer one misbehaviour
point. -/
theorem claim_C7_local_failure_amended (env : NodeEnv) (peer : Peer) (t : Tx)
    (hfc : peer.fullyConnected = true)
    (herr : env.storageGetAccount (env.cryptoAddress t.publicKey) = .error ()) :
    incomingMessage env peer (.tx t) = [.misbehave 1]
      ∧ (runPeer peer (incomingMessage env peer (.tx t))).misbehaviorScore
          = peer.misbehaviorScore + 1 := by
  have htrace : incomingMessage env peer (.tx t) = [.misbehave 1] := by
    simp [incomingMessage, incomingMessageBody, handleTx, checkTx, hfc, herr]
  exact ⟨htrace, by simp [htrace, runPeer, applyToPeer]⟩

/-- Witness for C7 (amended): the environment whose Storage always fails. -/
theorem claim_C7_local_failure_amended_witness :
    incomingMessage envStorageDown peerFull (.tx ⟨5⟩) = [.misbehave 1]
      ∧ (runPeer peerFull
            (incomingMessage envStorageDown peerFull (.tx ⟨5⟩))).misbehaviorScore
          = peerFull.misbehaviorScore + 1 :=
  claim_C7_local_failure_amended envStorageDown peerFull ⟨5⟩ rfl rfl

/-- When `addPeer` reports a collision it leaves the book untouched. -/
theorem addPeer_fst_none_book (book : List Peer) (p : Peer)
    (h : (addPeer book p).1 = none) : (addPeer book p).2 = book := by
  unfold addPeer at h ⊢
  cases hf : book.find? (fun q => q.address == p.address) with
  | none => simp only [hf] at h; simp at h
  | some q =>
      simp only [hf] at h ⊢
      by_cases hc : q.connected = true <;> simp [hc] at h ⊢

/-- C3: when the peer manager reports a duplicate for a fresh inbound
connection, the node pushes exactly one `MsgReject` with `REJECT_DUPLICATE`
and reason "Duplicate connection detected" on the new connection, then
disconnects it, and the address book — the existing peers — is unchanged;
when `addPeer` returns a peer, no reject is sent. -/
theorem claim_C3_duplicate_connection (book : List Peer) (a : Nat) :
    ((addPeer book (mkInboundPeer a)).1 = none →
        (incomingConnection book a).1
            = [.send (.reject .REJECT_DUPLICATE "Duplicate connection detected"),
               .disconnect]
          ∧ sentMsgs (incomingConnection book a).1
              = [.reject .REJECT_DUPLICATE "Duplicate connection detected"]
          ∧ (runPeer (mkInboundPeer a) (incomingConnection book a).1).connected = false
          ∧ (incomingConnection book a).2 = book)
      ∧ ((addPeer book (mkInboundPeer a)).1.isSome = true →
          sentMsgs (incomingConnection book a).1 = []) := by
  constructor
  · intro h
    have hpair : addPeer book (mkInboundPeer a) = (none, book) :=
      Prod.ext h (addPeer_fst_none_book book (mkInboundPeer a) h)
    refine ⟨?_, ?_, ?_, ?_⟩ <;>
      simp [incomingConnection, hpair, sentMsgs, runPeer, applyToPeer]
  · intro h
    obtain ⟨q, hq⟩ := Option.isSome_iff_exists.mp h
    cases hp : addPeer book (mkInboundPeer a) with
    | mk o b2 =>
        rw [hp] at hq
        simp only [] at hq
        subst hq
        simp [incomingConnection, hp, sentMsgs]

/-- Witness for C3: a fresh inbound connection from address 9 colliding
with a live peer at the same address, and one arriving at an empty book. -/
theorem claim_C3_duplicate_connection_witness :
    ((incomingConnection [mkInboundPeer 9] 9).1
          = [.send (.reject .REJECT_DUPLICATE "Duplicate connection detected"),
             .disconnect]
        ∧ sentMsgs (incomingConnection [mkInboundPeer 9] 9).1
            = [.reject .REJECT_DUPLICATE "Duplicate connection detected"]
        ∧ (runPeer (mkInboundPeer 9) (incomingConnection [mkInboundPeer 9] 9).1).connected
            = false
        ∧ (incomingConnection [mkInboundPeer 9] 9).2 = [mkInboundPeer 9])
      ∧ sentMsgs (incomingConnection [] 9).1 = [] :=
  ⟨(claim_C3_duplicate_connection [mkInboundPeer 9] 9).1 (by decide),
   (claim_C3_duplicate_connection [] 9).2 (by decide)⟩

/-- C4, evaluated at the failing input: on a GETADDR with 1001 known peers
the node pushes a single `MsgAddr` carrying all 1001 descriptors — more
than `ADDR_MAX_LENGTH` — instead of splitting the excess across several
messages (the code only logs an error there). -/
theorem claim_C4_no_addr_split :
    sentMsgs (incomingMessage envBig peerFull .getaddr)
        = [.addr 1001 bigBook]
      ∧ (sentMsgs (incomingMessage envBig peerFull .getaddr)).length = 1
      ∧ bigBook.length = 1001
      ∧ ADDR_MAX_LENGTH < bigBook.length := by
  have hlen : bigBook.length = 1001 := by simp [bigBook]
  have htrace : incomingMessage envBig peerFull .getaddr
      = [.send (.addr 1001 bigBook)] := by
    have h1 : peerFull.fullyConnected = true := rfl
    have h2 : envBig.bookInfos = bigBook := rfl
    simp [incomingMessage, incomingMessageBody, handlePeerRequest, h1, h2, hlen]
  refine ⟨?_, ?_, hlen, ?_⟩
  · simp [htrace, sentMsgs]
  · simp [htrace, sentMsgs]
  · rw [hlen]; decide

/-- Unfolding `allSettleTime` on a cons cell. -/
theorem allSettleTime_cons (r : DnsOutcome) (rs : List DnsOutcome) :
    allSettleTime (r :: rs)
      = match allSettleTime rs with
        | none => none
        | some m =>
            match r with
            | .resolves t _ => some (max t m)
            | .fails t => some (max t m)
            | .hangs => none := rfl

/-- Every resolver that fulfils does so no later than the time at which
`Promise.all` settles. -/
theorem allSettleTime_ge_resolves (rs : List DnsOutcome) (m t : Nat)
    (a : List Nat) (hm : allSettleTime rs = some m)
    (hr : DnsOutcome.resolves t a ∈ rs) : t ≤ m := by
  induction rs generalizing m with
  | nil => cases hr
  | cons r rs ih =>
      rw [allSettleTime_cons] at hm
      cases hs : allSettleTime rs with
      | none => rw [hs] at hm; exact absurd hm (by simp)
      | some m' =>
          rw [hs] at hm
          rcases List.mem_cons.mp hr with hhead | htail
          · subst hhead
            simp only [] at hm
            cases hm
            exact le_max_left t m'
          · have ht' : t ≤ m' := ih m' hs htail
            cases r with
            | resolves t2 a2 =>
                simp only [] at hm
                cases hm
                exact le_trans ht' (le_max_right t2 m')
            | fails t2 =>
                simp only [] at hm
                cases hm
                exact le_trans ht' (le_max_right t2 m')
            | hangs => exact absurd hm (by simp)

/-- The accumulator loop of `_queryDnsRecords` collects exactly the
addresses of the resolvers that fulfilled by the cut-off, in seed order. -/
theorem collectResolved_eq_filterMap (cutoff : Nat) (rs : List DnsOutcome) :
    collectResolved cutoff rs = (rs.filterMap (resolvedBy cutoff)).flatten := by
  suffices h : ∀ acc : List Nat,
      rs.foldl
        (fun acc r =>
          match r with
          | .resolves t addrs => if t ≤ cutoff then acc ++ addrs else acc
          | _ => acc)
        acc
      = acc ++ (rs.filterMap (resolvedBy cutoff)).flatten by
    simpa [collectResolved] using h []
  induction rs with
  | nil => intro acc; simp
  | cons r rs ih =>
      intro acc
      cases r with
      | resolves t addrs =>
          by_cases ht : t ≤ cutoff <;>
            simp [resolvedBy, ht, ih, List.append_assoc]
      | fails t => simp [resolvedBy, ih]
      | hangs => simp [resolvedBy, ih]

/-- C8: the DNS query of bootstrap settles no later than the query timeout,
returns exactly the concatenated addresses of the resolvers that fulfilled
in time — a resolver's rejection was caught inside its wrapped promise and
never propagates — and dropping a failing or hanging seed from the list
leaves the surviving seeds' contribution unchanged. -/
theorem claim_C8_dns_partial_tolerance (timeout tf : Nat) (rs : List DnsOutcome) :
    queryCompletionTime timeout rs ≤ timeout
      ∧ queryDnsRecords timeout rs = (rs.filterMap (resolvedBy timeout)).flatten
      ∧ queryDnsRecords timeout (.fails tf :: rs) = queryDnsRecords timeout rs
      ∧ queryDnsRecords timeout (.hangs :: rs) = queryDnsRecords timeout rs := by
  have hmain : ∀ rs' : List DnsOutcome,
      queryDnsRecords timeout rs' = (rs'.filterMap (resolvedBy timeout)).flatten := by
    intro rs'
    unfold queryDnsRecords
    rw [collectResolved_eq_filterMap]
    cases h : allSettleTime rs' with
    | none => simp [queryCompletionTime, h]
    | some m =>
        have hcongr : ∀ r ∈ rs', resolvedBy (min m timeout) r = resolvedBy timeout r := by
          intro r hr
          cases r with
          | resolves t a =>
              have ht : allSettleTime rs' = some m → t ≤ m := fun hh =>
                allSettleTime_ge_resolves rs' m t a hh hr
              have htm : t ≤ m := ht h
              by_cases htt : t ≤ timeout
              · simp [resolvedBy, htt, le_min htm htt]
              · have hnot : ¬ t ≤ min m timeout := fun hmin =>
                  htt (le_trans hmin (min_le_right m timeout))
                simp [resolvedBy, htt, hnot]
          | fails t => simp [resolvedBy]
          | hangs => simp [resolvedBy]
        have hq : queryCompletionTime timeout rs' = min m timeout := by
          simp [queryCompletionTime, h]
        rw [hq, List.filterMap_congr hcongr]
  refine ⟨?_, hmain rs, ?_, ?_⟩
  · unfold queryCompletionTime
    cases h : allSettleTime rs <;> simp
  · rw [hmain, hmain]
    simp [resolvedBy]
  · rw [hmain, hmain]
    simp [resolvedBy]

end Cil
